import Mathlib

namespace SolanaRace

/-! Shallow embedding of `src/src/lib.rs` (race-event Solana program). Bytes are
`Nat` values below 256; a `Pubkey` is its list of 32 raw bytes. The borsh wire
format (little-endian integers, `u32`-length-prefixed strings and vectors,
one-byte `Option` and enum tags) is modelled explicitly. -/

/-- A public key: the 32 raw bytes of `solana_program::pubkey::Pubkey`. -/
abbrev Pubkey := List Nat

/-- Model of `Player` from the source: a 32-byte address and a `u8` slot. -/
structure Player where
  address : Pubkey
  slot : Nat
  deriving DecidableEq, Repr

/-- Model of `RaceAccount` from the source, fields in declaration (= wire) order.
The Rust field `r#type` is `type` here. Strings are modelled as their
UTF-8 byte lists. -/
structure RaceAccount where
  status : Nat
  level : Nat
  type : Nat
  date : Nat
  name : List Nat
  location : List Nat
  distance : Nat
  entry_fee : Nat
  prize_pool : Nat
  game_url : List Nat
  end_date : Nat
  players : Option (List Player)
  deriving DecidableEq, Repr

/-- Model of `UpdateRaceArgs` from the source. -/
structure UpdateRaceArgs where
  status : Nat
  level : Nat
  type : Nat
  date : Nat
  name : List Nat
  location : List Nat
  distance : Nat
  entry_fee : Nat
  prize_pool : Nat
  deriving DecidableEq, Repr

/-- Model of `UpdateGameArgs` from the source. -/
structure UpdateGameArgs where
  game_url : List Nat
  end_date : Nat
  deriving DecidableEq, Repr

/-- Model of `JoinRaceArgs` from the source. -/
structure JoinRaceArgs where
  player : Player
  deriving DecidableEq, Repr

/-- Model of `RaceInstruction` from the source (borsh enum, variant tags 0, 1, 2). -/
inductive RaceInstruction where
  | UpdateRace (args : UpdateRaceArgs)
  | UpdateGame (args : UpdateGameArgs)
  | JoinRace (args : JoinRaceArgs)
  deriving DecidableEq, Repr

/-- The `ProgramError` values this program can produce. `custom 0` is
`RaceError::PlayerFoundError` ("Player Already exists!"), `custom 1` is
`RaceError::SlotNotAvailableError` ("Slot not available!"); `borshIoError`
covers every borsh (de)serialization failure converted by `?`. -/
inductive ProgramError where
  | custom (code : Nat)
  | incorrectProgramId
  | notEnoughAccountKeys
  | borshIoError
  deriving DecidableEq, Repr

/-- The observable part of `AccountInfo`: its recorded owner and its data
bytes (the fixed-capacity storage slot). -/
structure AccountInfo where
  owner : Pubkey
  data : List Nat
  deriving DecidableEq, Repr

/-! ## Borsh encoding -/

/-- One `u8`, as borsh writes it. -/
def u8LE (n : Nat) : List Nat := [n % 256]

/-- A `u16`, little-endian. -/
def u16LE (n : Nat) : List Nat := [n % 256, n / 256 % 256]

/-- A `u32`, little-endian. -/
def u32LE (n : Nat) : List Nat :=
  [n % 256, n / 256 % 256, n / 65536 % 256, n / 16777216 % 256]

/-- A `u64`, little-endian. -/
def u64LE (n : Nat) : List Nat :=
  [n % 256, n / 256 % 256, n / 65536 % 256, n / 16777216 % 256,
   n / 4294967296 % 256, n / 1099511627776 % 256,
   n / 281474976710656 % 256, n / 72057594037927936 % 256]

/-- A borsh `String`: `u32` byte length, then the bytes. -/
def encodeString (s : List Nat) : List Nat := u32LE s.length ++ s

/-- A borsh `Player`: 32 raw pubkey bytes, then the `u8` slot. -/
def encodePlayer (p : Player) : List Nat := p.address ++ u8LE p.slot

/-- The concatenated element encodings of a player vector. -/
def encodePlayersList : List Player → List Nat
  | [] => []
  | p :: ps => encodePlayer p ++ encodePlayersList ps

/-- A borsh `Option<Vec<Player>>`: tag byte 0, or tag byte 1 followed by the
`u32` element count and the elements. -/
def encodeOptPlayers : Option (List Player) → List Nat
  | none => [0]
  | some ps => 1 :: (u32LE ps.length ++ encodePlayersList ps)

/-- Borsh serialization of a `RaceAccount`, fields in declaration order. -/
def encodeRace (r : RaceAccount) : List Nat :=
  u8LE r.status ++ u8LE r.level ++ u8LE r.type ++ u64LE r.date ++
  encodeString r.name ++ encodeString r.location ++
  u16LE r.distance ++ u16LE r.entry_fee ++ u16LE r.prize_pool ++
  encodeString r.game_url ++ u64LE r.end_date ++ encodeOptPlayers r.players

/-! ## Borsh decoding -/

/-- Read one byte. -/
def readU8 : List Nat → Option (Nat × List Nat)
  | [] => none
  | b :: rest => some (b, rest)

/-- Read a little-endian `u16`. -/
def readU16 : List Nat → Option (Nat × List Nat)
  | b0 :: b1 :: rest => some (b0 + 256 * b1, rest)
  | _ => none

/-- Read a little-endian `u32`. -/
def readU32 : List Nat → Option (Nat × List Nat)
  | b0 :: b1 :: b2 :: b3 :: rest =>
      some (b0 + 256 * b1 + 65536 * b2 + 16777216 * b3, rest)
  | _ => none

/-- Read a little-endian `u64`. -/
def readU64 : List Nat → Option (Nat × List Nat)
  | b0 :: b1 :: b2 :: b3 :: b4 :: b5 :: b6 :: b7 :: rest =>
      some (b0 + 256 * b1 + 65536 * b2 + 16777216 * b3 + 4294967296 * b4 +
        1099511627776 * b5 + 281474976710656 * b6 +
        72057594037927936 * b7, rest)
  | _ => none

/-- Read `n` raw bytes. -/
def readBytes (n : Nat) (l : List Nat) : Option (List Nat × List Nat) :=
  if n ≤ l.length then some (l.take n, l.drop n) else none

/-- Read a borsh `String` (as its byte list). -/
def readString (l : List Nat) : Option (List Nat × List Nat) :=
  (readU32 l).bind fun (n, l) => readBytes n l

/-- Read a borsh `Player`. -/
def readPlayer (l : List Nat) : Option (Player × List Nat) :=
  (readBytes 32 l).bind fun (a, l) =>
  (readU8 l).bind fun (s, l) =>
  some (⟨a, s⟩, l)

/-- Read `n` consecutive borsh `Player` values. -/
def readPlayersN : Nat → List Nat → Option (List Player × List Nat)
  | 0, l => some ([], l)
  | n + 1, l =>
      (readPlayer l).bind fun (p, l) =>
      (readPlayersN n l).bind fun (ps, l) =>
      some (p :: ps, l)

/-- Read a borsh `Option<Vec<Player>>`. -/
def readOptPlayers (l : List Nat) : Option (Option (List Player) × List Nat) :=
  (readU8 l).bind fun (tag, l) =>
    if tag = 0 then some (none, l)
    else if tag = 1 then
      (readU32 l).bind fun (n, l) =>
      (readPlayersN n l).bind fun (ps, l) =>
      some (some ps, l)
    else none

/-- Borsh deserialization of a `RaceAccount`. -/
def readRace (l : List Nat) : Option (RaceAccount × List Nat) :=
  (readU8 l).bind fun (status, l) =>
  (readU8 l).bind fun (level, l) =>
  (readU8 l).bind fun (ty, l) =>
  (readU64 l).bind fun (date, l) =>
  (readString l).bind fun (name, l) =>
  (readString l).bind fun (location, l) =>
  (readU16 l).bind fun (distance, l) =>
  (readU16 l).bind fun (entry_fee, l) =>
  (readU16 l).bind fun (prize_pool, l) =>
  (readString l).bind fun (game_url, l) =>
  (readU64 l).bind fun (end_date, l) =>
  (readOptPlayers l).bind fun (players, l) =>
  some (⟨status, level, ty, date, name, location, distance, entry_fee,
    prize_pool, game_url, end_date, players⟩, l)

/-- Model of `RaceAccount::from_account_info`: `try_from_slice_unchecked` on the
account's data — trailing bytes after the record are ignored. -/
def RaceAccount.from_account_info (a : AccountInfo) : Option RaceAccount :=
  (readRace a.data).map Prod.fst

/-- Read an `UpdateRaceArgs` payload. -/
def readUpdateRaceArgs (l : List Nat) : Option (UpdateRaceArgs × List Nat) :=
  (readU8 l).bind fun (status, l) =>
  (readU8 l).bind fun (level, l) =>
  (readU8 l).bind fun (ty, l) =>
  (readU64 l).bind fun (date, l) =>
  (readString l).bind fun (name, l) =>
  (readString l).bind fun (location, l) =>
  (readU16 l).bind fun (distance, l) =>
  (readU16 l).bind fun (entry_fee, l) =>
  (readU16 l).bind fun (prize_pool, l) =>
  some (⟨status, level, ty, date, name, location, distance, entry_fee,
    prize_pool⟩, l)

/-- Read an `UpdateGameArgs` payload. -/
def readUpdateGameArgs (l : List Nat) : Option (UpdateGameArgs × List Nat) :=
  (readString l).bind fun (game_url, l) =>
  (readU64 l).bind fun (end_date, l) =>
  some (⟨game_url, end_date⟩, l)

/-- Read a `JoinRaceArgs` payload. -/
def readJoinRaceArgs (l : List Nat) : Option (JoinRaceArgs × List Nat) :=
  (readPlayer l).bind fun (p, l) => some (⟨p⟩, l)

/-- Read a `RaceInstruction`: one tag byte, then the variant's payload. -/
def readInstr (l : List Nat) : Option (RaceInstruction × List Nat) :=
  (readU8 l).bind fun (tag, l) =>
    if tag = 0 then
      (readUpdateRaceArgs l).bind fun (a, l) => some (.UpdateRace a, l)
    else if tag = 1 then
      (readUpdateGameArgs l).bind fun (a, l) => some (.UpdateGame a, l)
    else if tag = 2 then
      (readJoinRaceArgs l).bind fun (a, l) => some (.JoinRace a, l)
    else none

/-- Model of `RaceInstruction::try_from_slice`: the whole buffer must be consumed. -/
def decodeInstruction (l : List Nat) : Option RaceInstruction :=
  match readInstr l with
  | some (i, []) => some i
  | _ => none

/-! ## Handlers

Each `process_*` function returns the call's result together with the account
list as it stands after the call, so that effects on the stored bytes (or
their absence) are part of the model. `serialize_into` models
`race_account.serialize(&mut &mut account.data.borrow_mut()[..])?`: borsh
writes the encoding sequentially into the fixed slice via `write_all`, so on
overflow the slice has already been filled with the encoding's prefix when
the `WriteZero` failure surfaces (a partial write), and the error reaches the
caller as a borsh I/O error. On success only the encoding's length is
overwritten; trailing stale bytes survive. -/

/-- Serialize `r` into a fixed-capacity byte store (see section comment). -/
def serialize_into (r : RaceAccount) (store : List Nat) :
    Except ProgramError Unit × List Nat :=
  let e := encodeRace r
  if e.length ≤ store.length then (.ok (), e ++ store.drop e.length)
  else (.error .borshIoError, e.take store.length)

/-- The record mutation of `process_update_race` (source lines 172-179):
`date, level, name, location, distance, entry_fee, prize_pool, status` are
overwritten from the arguments. The source never assigns `r#type`, and
`players` is untouched. -/
def updateRaceRecord (r : RaceAccount) (args : UpdateRaceArgs) : RaceAccount :=
  { r with
    date := args.date
    level := args.level
    name := args.name
    location := args.location
    distance := args.distance
    entry_fee := args.entry_fee
    prize_pool := args.prize_pool
    status := args.status }

/-- The record mutation of `process_update_game` (source lines 205-206):
only `game_url` and `end_date` are overwritten. -/
def updateGameRecord (r : RaceAccount) (args : UpdateGameArgs) : RaceAccount :=
  { r with game_url := args.game_url, end_date := args.end_date }

/-- The roster scan of `process_join_race`: for each existing player, in
order, the address comparison runs before the slot comparison; the first
match aborts with the corresponding `RaceError`. -/
def scanRoster : List Player → Player → Option ProgramError
  | [], _ => none
  | q :: qs, p =>
      if q.address = p.address then some (.custom 0)
      else if q.slot = p.slot then some (.custom 1)
      else scanRoster qs p

/-- The record-level effect of `process_join_race` (source lines 232-249).
When the roster is absent the record gains `players = [args.player]`. When a
roster is present and the scan finds no conflict, the source pushes the
existing entries and then `args.player` into a local `new_players` vector but
never stores that vector back into `race_account.players`, so the record is
returned unchanged. -/
def joinRaceRecord (r : RaceAccount) (p : Player) :
    Except ProgramError RaceAccount :=
  match r.players with
  | some players =>
      match scanRoster players p with
      | some e => .error e
      | none => .ok r
  | none => .ok { r with players := some [p] }

/-- Model of `process_update_race`: take the first account (`MissingAccount` =
`NotEnoughAccountKeys` when absent), require `account.owner == program_id`,
deserialize, mutate, serialize back. -/
def process_update_race (program_id : Pubkey) (accounts : List AccountInfo)
    (args : UpdateRaceArgs) : Except ProgramError Unit × List AccountInfo :=
  match accounts with
  | [] => (.error .notEnoughAccountKeys, [])
  | account :: rest =>
      if account.owner = program_id then
        match RaceAccount.from_account_info account with
        | none => (.error .borshIoError, account :: rest)
        | some race_account =>
            let (res, data') :=
              serialize_into (updateRaceRecord race_account args) account.data
            (res, { account with data := data' } :: rest)
      else (.error .incorrectProgramId, account :: rest)

/-- Model of `process_update_game`: same shape as `process_update_race` with the
game-info mutation. -/
def process_update_game (program_id : Pubkey) (accounts : List AccountInfo)
    (args : UpdateGameArgs) : Except ProgramError Unit × List AccountInfo :=
  match accounts with
  | [] => (.error .notEnoughAccountKeys, [])
  | account :: rest =>
      if account.owner = program_id then
        match RaceAccount.from_account_info account with
        | none => (.error .borshIoError, account :: rest)
        | some race_account =>
            let (res, data') :=
              serialize_into (updateGameRecord race_account args) account.data
            (res, { account with data := data' } :: rest)
      else (.error .incorrectProgramId, account :: rest)

/-- Model of `process_join_race`: owner gate, deserialize, roster logic, serialize
back; a roster conflict returns before any write. -/
def process_join_race (program_id : Pubkey) (accounts : List AccountInfo)
    (args : JoinRaceArgs) : Except ProgramError Unit × List AccountInfo :=
  match accounts with
  | [] => (.error .notEnoughAccountKeys, [])
  | account :: rest =>
      if account.owner = program_id then
        match RaceAccount.from_account_info account with
        | none => (.error .borshIoError, account :: rest)
        | some race_account =>
            match joinRaceRecord race_account args.player with
            | .error e => (.error e, account :: rest)
            | .ok race_account' =>
                let (res, data') :=
                  serialize_into race_account' account.data
                (res, { account with data := data' } :: rest)
      else (.error .incorrectProgramId, account :: rest)

/-- Model of `process_instruction`: decode the instruction bytes first (`?` on
`try_from_slice`), then dispatch; accounts are only touched by the handlers. -/
def process_instruction (program_id : Pubkey) (accounts : List AccountInfo)
    (instruction_data : List Nat) :
    Except ProgramError Unit × List AccountInfo :=
  match decodeInstruction instruction_data with
  | none => (.error .borshIoError, accounts)
  | some (.UpdateRace args) => process_update_race program_id accounts args
  | some (.UpdateGame args) => process_update_game program_id accounts args
  | some (.JoinRace args) => process_join_race program_id accounts args

/-- Fold a sequence of record-level joins; any failure aborts the sequence. -/
def runJoins (r : RaceAccount) : List Player → Except ProgramError RaceAccount
  | [] => .ok r
  | p :: ps => (joinRaceRecord r p).bind fun r' => runJoins r' ps

/-! ## In-range records

The Rust field types bound every numeric field; a `Nat`-valued record is
"in range" when it respects those machine-width bounds (and each pubkey has
its 32 bytes, each length fits the `u32` borsh prefix). -/

/-- A `Player` whose fields fit their Rust types. -/
def PlayerInRange (p : Player) : Prop :=
  p.address.length = 32 ∧ p.slot < 256

instance (p : Player) : Decidable (PlayerInRange p) :=
  inferInstanceAs (Decidable (p.address.length = 32 ∧ p.slot < 256))

/-- An optional roster whose players fit their Rust types. -/
def optPlayersInRange : Option (List Player) → Prop
  | none => True
  | some ps => ps.length < 4294967296 ∧ ∀ p ∈ ps, PlayerInRange p

instance (op : Option (List Player)) : Decidable (optPlayersInRange op) :=
  match op with
  | none => .isTrue trivial
  | some ps =>
      inferInstanceAs (Decidable (ps.length < 4294967296 ∧ ∀ p ∈ ps, PlayerInRange p))

/-- A `RaceAccount` whose fields fit their Rust types. -/
def raceInRange (r : RaceAccount) : Prop :=
  r.status < 256 ∧ r.level < 256 ∧ r.type < 256 ∧ r.date < 18446744073709551616 ∧
  r.name.length < 4294967296 ∧ r.location.length < 4294967296 ∧
  r.distance < 65536 ∧ r.entry_fee < 65536 ∧ r.prize_pool < 65536 ∧
  r.game_url.length < 4294967296 ∧ r.end_date < 18446744073709551616 ∧
  optPlayersInRange r.players

instance (r : RaceAccount) : Decidable (raceInRange r) :=
  inferInstanceAs (Decidable (r.status < 256 ∧ r.level < 256 ∧ r.type < 256 ∧
    r.date < 18446744073709551616 ∧ r.name.length < 4294967296 ∧ r.location.length < 4294967296 ∧
    r.distance < 65536 ∧ r.entry_fee < 65536 ∧ r.prize_pool < 65536 ∧
    r.game_url.length < 4294967296 ∧ r.end_date < 18446744073709551616 ∧
    optPlayersInRange r.players))

/-! ## Decode-encode agreement, field by field -/

theorem readU8_u8LE (n : Nat) (h : n < 256) (rest : List Nat) :
    readU8 (u8LE n ++ rest) = some (n, rest) := by
  simp [readU8, u8LE, Nat.mod_eq_of_lt h]

theorem readU16_u16LE (n : Nat) (h : n < 65536) (rest : List Nat) :
    readU16 (u16LE n ++ rest) = some (n, rest) := by
  simp only [u16LE, List.cons_append, List.nil_append, readU16,
    Option.some.injEq, Prod.mk.injEq, and_true]
  omega

theorem readU32_u32LE (n : Nat) (h : n < 4294967296) (rest : List Nat) :
    readU32 (u32LE n ++ rest) = some (n, rest) := by
  simp only [u32LE, List.cons_append, List.nil_append, readU32,
    Option.some.injEq, Prod.mk.injEq, and_true]
  omega

theorem readU64_u64LE (n : Nat) (h : n < 18446744073709551616) (rest : List Nat) :
    readU64 (u64LE n ++ rest) = some (n, rest) := by
  simp only [u64LE, List.cons_append, List.nil_append, readU64,
    Option.some.injEq, Prod.mk.injEq, and_true]
  omega

theorem readBytes_append (l rest : List Nat) :
    readBytes l.length (l ++ rest) = some (l, rest) := by
  simp [readBytes, List.take_left, List.drop_left]

theorem readString_encodeString (s : List Nat) (h : s.length < 4294967296)
    (rest : List Nat) :
    readString (encodeString s ++ rest) = some (s, rest) := by
  simp [readString, encodeString, List.append_assoc,
    readU32_u32LE s.length h (s ++ rest), Option.bind, readBytes_append]

theorem readPlayer_encodePlayer (p : Player) (h : PlayerInRange p)
    (rest : List Nat) :
    readPlayer (encodePlayer p ++ rest) = some (p, rest) := by
  obtain ⟨h32, hs⟩ := h
  have h1 : readBytes 32 (p.address ++ (u8LE p.slot ++ rest)) =
      some (p.address, u8LE p.slot ++ rest) := by
    rw [← h32]; exact readBytes_append _ _
  simp [readPlayer, encodePlayer, List.append_assoc, h1, Option.bind,
    readU8_u8LE p.slot hs]

theorem readPlayersN_encodePlayersList (ps : List Player)
    (h : ∀ p ∈ ps, PlayerInRange p) (rest : List Nat) :
    readPlayersN ps.length (encodePlayersList ps ++ rest) = some (ps, rest) := by
  induction ps generalizing rest with
  | nil => simp [readPlayersN, encodePlayersList]
  | cons p ps ih =>
      have hp : PlayerInRange p := h p (by simp)
      have hps : ∀ q ∈ ps, PlayerInRange q := fun q hq => h q (by simp [hq])
      simp [readPlayersN, encodePlayersList, List.append_assoc,
        readPlayer_encodePlayer p hp, Option.bind, ih hps]

theorem readOptPlayers_encodeOptPlayers (op : Option (List Player))
    (h : optPlayersInRange op) (rest : List Nat) :
    readOptPlayers (encodeOptPlayers op ++ rest) = some (op, rest) := by
  match op with
  | none => simp [readOptPlayers, encodeOptPlayers, readU8, Option.bind]
  | some ps =>
      obtain ⟨hlen, hps⟩ := h
      simp [readOptPlayers, encodeOptPlayers, readU8, Option.bind,
        List.append_assoc, readU32_u32LE ps.length hlen,
        readPlayersN_encodePlayersList ps hps]

theorem readRace_encodeRace (r : RaceAccount) (h : raceInRange r)
    (rest : List Nat) :
    readRace (encodeRace r ++ rest) = some (r, rest) := by
  obtain ⟨st, lv, ty, dt, nm, lo, di, ef, pp, gu, ed, pl⟩ := r
  simp only [raceInRange] at h
  obtain ⟨hst, hlv, hty, hdt, hnm, hlo, hdi, hef, hpp, hgu, hed, hpl⟩ := h
  simp only [encodeRace, List.append_assoc]
  simp only [readRace, Option.bind,
    readU8_u8LE _ hst, readU8_u8LE _ hlv, readU8_u8LE _ hty,
    readU64_u64LE _ hdt, readString_encodeString _ hnm,
    readString_encodeString _ hlo, readU16_u16LE _ hdi,
    readU16_u16LE _ hef, readU16_u16LE _ hpp,
    readString_encodeString _ hgu, readU64_u64LE _ hed,
    readOptPlayers_encodeOptPlayers _ hpl]

/-! ## Concrete inputs used by witnesses and counterexamples -/

/-- A program id. -/
def pid0 : Pubkey := List.replicate 32 0

/-- Address `A`. -/
def addrA : Pubkey := List.replicate 32 1

/-- Address `B`. -/
def addrB : Pubkey := List.replicate 32 2

/-- A record with an absent roster and minimal fields. -/
def emptyRecord : RaceAccount :=
  ⟨0, 0, 0, 0, [], [], 0, 0, 0, [], 0, none⟩

/-- A record with the one-player roster `[{A, 3}]`. -/
def recordA3 : RaceAccount :=
  ⟨0, 0, 0, 0, [], [], 0, 0, 0, [], 0, some [⟨addrA, 3⟩]⟩

/-- A record with the two-player roster `[{A, 3}, {B, 5}]`. -/
def recordA3B5 : RaceAccount :=
  ⟨0, 0, 0, 0, [], [], 0, 0, 0, [], 0, some [⟨addrA, 3⟩, ⟨addrB, 5⟩]⟩

/-- An in-range record with every field populated. -/
def sampleRecord : RaceAccount :=
  ⟨1, 2, 3, 4, [97], [98], 5, 6, 7, [99], 8, some [⟨addrA, 3⟩, ⟨addrB, 7⟩]⟩

/-! ## Claim theorems -/

/-- C9: for every byte buffer that is the well-formed encoding of an in-range
`RaceAccount`, decoding yields the original record (with the whole buffer
consumed), and re-encoding the decoded record reproduces the buffer
byte-for-byte. -/
theorem race_record_roundtrip (r : RaceAccount) (b : List Nat)
    (hr : raceInRange r) (hb : b = encodeRace r) :
    readRace b = some (r, []) ∧
    (readRace b).map (fun q => encodeRace q.1) = some b := by
  subst hb
  have h := readRace_encodeRace r hr []
  rw [List.append_nil] at h
  exact ⟨h, by rw [h]; rfl⟩

/-- Witness for C9 at a fully populated concrete record. -/
theorem race_record_roundtrip_witness :
    raceInRange sampleRecord ∧
    (readRace (encodeRace sampleRecord) = some (sampleRecord, []) ∧
     (readRace (encodeRace sampleRecord)).map (fun q => encodeRace q.1) =
       some (encodeRace sampleRecord)) :=
  ⟨by decide,
   race_record_roundtrip sampleRecord (encodeRace sampleRecord) (by decide) rfl⟩

/-- C7: `process_update_game`'s record mutation overwrites exactly `game_url`
and `end_date` with the argument values and leaves every other field
(`status, level, type, date, name, location, distance, entry_fee,
prize_pool, players`) unchanged; as a total function it cannot fail. -/
theorem update_game_exact_fields (r : RaceAccount) (args : UpdateGameArgs) :
    (updateGameRecord r args).game_url = args.game_url ∧
    (updateGameRecord r args).end_date = args.end_date ∧
    (updateGameRecord r args).status = r.status ∧
    (updateGameRecord r args).level = r.level ∧
    (updateGameRecord r args).type = r.type ∧
    (updateGameRecord r args).date = r.date ∧
    (updateGameRecord r args).name = r.name ∧
    (updateGameRecord r args).location = r.location ∧
    (updateGameRecord r args).distance = r.distance ∧
    (updateGameRecord r args).entry_fee = r.entry_fee ∧
    (updateGameRecord r args).prize_pool = r.prize_pool ∧
    (updateGameRecord r args).players = r.players :=
  ⟨rfl, rfl, rfl, rfl, rfl, rfl, rfl, rfl, rfl, rfl, rfl, rfl⟩

/-- C8: applying `process_update_race`'s record mutation twice with identical
arguments yields the same record as applying it once. -/
theorem update_race_idempotent (r : RaceAccount) (args : UpdateRaceArgs) :
    updateRaceRecord (updateRaceRecord r args) args = updateRaceRecord r args :=
  rfl

/-- Pairwise-distinct addresses and slots of a record's roster (trivially
true when the roster is absent). -/
def rosterDistinct (r : RaceAccount) : Prop :=
  match r.players with
  | none => True
  | some ps =>
      ps.Pairwise (fun a b => a.address ≠ b.address) ∧
      ps.Pairwise (fun a b => a.slot ≠ b.slot)

theorem joinRaceRecord_preserves_distinct {r r' : RaceAccount} {p : Player}
    (hr : rosterDistinct r) (h : joinRaceRecord r p = .ok r') :
    rosterDistinct r' := by
  cases hps : r.players with
  | none =>
      simp only [joinRaceRecord, hps] at h
      cases h
      simp [rosterDistinct]
  | some ps =>
      simp only [joinRaceRecord, hps] at h
      cases hscan : scanRoster ps p with
      | some e => rw [hscan] at h; exact absurd h (by simp)
      | none =>
          simp only [hscan] at h
          cases h
          exact hr

theorem runJoins_preserves_distinct {r r' : RaceAccount} {ps : List Player}
    (hr : rosterDistinct r) (h : runJoins r ps = .ok r') :
    rosterDistinct r' := by
  induction ps generalizing r with
  | nil => unfold runJoins at h; cases h; exact hr
  | cons p ps ih =>
      unfold runJoins at h
      cases hj : joinRaceRecord r p with
      | error e => rw [hj] at h; cases h
      | ok r1 =>
          rw [hj] at h
          exact ih (joinRaceRecord_preserves_distinct hr hj) h

/-- C3: for every sequence of successful `JoinRace` record transitions
starting from a record with an absent roster, the resulting roster has
pairwise-distinct `address` values and pairwise-distinct `slot` values. -/
theorem join_sequence_roster_distinct (r0 r' : RaceAccount)
    (ps : List Player) (roster : List Player)
    (h0 : r0.players = none) (h : runJoins r0 ps = .ok r')
    (hr : r'.players = some roster) :
    roster.Pairwise (fun a b => a.address ≠ b.address) ∧
    roster.Pairwise (fun a b => a.slot ≠ b.slot) := by
  have hd0 : rosterDistinct r0 := by unfold rosterDistinct; rw [h0]; trivial
  have hd := runJoins_preserves_distinct hd0 h
  unfold rosterDistinct at hd
  rw [hr] at hd
  exact hd

/-- Witness for C3: two joins from the absent roster. -/
theorem join_sequence_roster_distinct_witness :
    emptyRecord.players = none ∧
    runJoins emptyRecord [⟨addrA, 3⟩, ⟨addrB, 7⟩] =
      .ok { emptyRecord with players := some [⟨addrA, 3⟩] } ∧
    (List.Pairwise (fun a b => a.address ≠ b.address) [(⟨addrA, 3⟩ : Player)] ∧
     List.Pairwise (fun a b => a.slot ≠ b.slot) [(⟨addrA, 3⟩ : Player)]) :=
  ⟨rfl, rfl,
   join_sequence_roster_distinct emptyRecord
     { emptyRecord with players := some [⟨addrA, 3⟩] }
     [⟨addrA, 3⟩, ⟨addrB, 7⟩] [⟨addrA, 3⟩] rfl rfl rfl⟩

/-- C4: for every instruction variant, when the target account's recorded
owner differs from the program id the call fails with the owner error
(`ProgramError::IncorrectProgramId`, the code's rendering of the spec's
`UnauthorizedOwner`) and the account list — hence the stored bytes — is
returned unchanged. No hypothesis constrains `account.data`, so the gate
fires before any deserialization of the record bytes is even attempted. -/
theorem unauthorized_owner_gate (program_id : Pubkey) (account : AccountInfo)
    (rest : List AccountInfo) (data : List Nat) (instr : RaceInstruction)
    (hdec : decodeInstruction data = some instr)
    (hown : account.owner ≠ program_id) :
    process_instruction program_id (account :: rest) data =
      (.error .incorrectProgramId, account :: rest) := by
  unfold process_instruction
  rw [hdec]
  cases instr <;>
    simp [process_update_race, process_update_game, process_join_race, hown]

/-- Witness for C4: an `UpdateGame` instruction against a foreign-owned
account whose data bytes are not even a decodable record. -/
theorem unauthorized_owner_gate_witness :
    decodeInstruction (1 :: (encodeString [] ++ u64LE 0)) =
      some (.UpdateGame ⟨[], 0⟩) ∧
    (AccountInfo.mk addrA [255]).owner ≠ pid0 ∧
    process_instruction pid0 [⟨addrA, [255]⟩] (1 :: (encodeString [] ++ u64LE 0)) =
      (.error .incorrectProgramId, [⟨addrA, [255]⟩]) :=
  ⟨by decide, by decide,
   unauthorized_owner_gate pid0 ⟨addrA, [255]⟩ [] _ (.UpdateGame ⟨[], 0⟩)
     (by decide) (by decide)⟩

/-- C10: when the instruction bytes do not decode to one of the three
variants, the dispatcher returns the decode failure (borsh I/O error) with
the account list untouched — for every account list, including the empty
one, so the malformed-instruction error takes priority over the
missing-account error. -/
theorem malformed_instruction_before_accounts (program_id : Pubkey)
    (accounts : List AccountInfo) (data : List Nat)
    (h : decodeInstruction data = none) :
    process_instruction program_id accounts data =
      (.error .borshIoError, accounts) := by
  unfold process_instruction
  rw [h]

/-- Witness for C10: an unknown leading discriminant with no accounts at
all still yields the decode error, not `NotEnoughAccountKeys`. -/
theorem malformed_instruction_before_accounts_witness :
    decodeInstruction [3] = none ∧
    process_instruction pid0 [] [3] = (.error .borshIoError, []) ∧
    ProgramError.borshIoError ≠ ProgramError.notEnoughAccountKeys :=
  ⟨by decide, malformed_instruction_before_accounts pid0 [] [3] (by decide),
   by decide⟩

/-- The account storing `recordA3B5`, owned by the program. -/
def accA3B5 : AccountInfo := ⟨pid0, encodeRace recordA3B5⟩

/-- C5 counterexample: in roster `[{A,3},{B,5}]` the joining player
`{B, 3}` shares entry `{B,5}`'s address, so the claim demands
`PlayerAlreadyExists` (`custom 0`); the code scans in order, hits entry
`{A,3}`'s slot first, and fails with `SlotNotAvailable` (`custom 1`). -/
theorem join_error_priority_counterexample :
    recordA3B5.players = some [⟨addrA, 3⟩, ⟨addrB, 5⟩] ∧
    (Player.mk addrB 5).address = (Player.mk addrB 3).address ∧
    RaceAccount.from_account_info accA3B5 = some recordA3B5 ∧
    process_join_race pid0 [accA3B5] ⟨⟨addrB, 3⟩⟩ =
      (.error (.custom 1), [accA3B5]) ∧
    ProgramError.custom 1 ≠ ProgramError.custom 0 :=
  ⟨rfl, rfl, rfl, rfl, by decide⟩

theorem scanRoster_eq_of_find (p q : Player) (roster : List Player)
    (h : roster.find?
      (fun x => decide (x.address = p.address) || decide (x.slot = p.slot)) =
        some q) :
    scanRoster roster p =
      some (if q.address = p.address then .custom 0 else .custom 1) := by
  induction roster with
  | nil => simp at h
  | cons x xs ih =>
      by_cases ha : x.address = p.address
      · simp only [List.find?_cons, ha, decide_True, Bool.true_or,
          Option.some.injEq] at h
        subst h
        simp [scanRoster, ha]
      · by_cases hs : x.slot = p.slot
        · simp only [List.find?_cons, ha, hs, decide_True, decide_False,
            Bool.false_or, Option.some.injEq] at h
          subst h
          simp [scanRoster, ha, hs]
        · simp only [List.find?_cons, ha, hs, decide_False,
            Bool.false_or] at h
          simp [scanRoster, ha, hs, ih h]

/-- C5 amended: when a present roster contains a conflicting entry, the
reported error follows scan order — the first entry (in roster order)
matching the joining player's address or slot decides it, the address
comparison running before the slot comparison on each entry: an address
match on that entry gives `PlayerAlreadyExists` (`custom 0`), otherwise a
slot match gives `SlotNotAvailable` (`custom 1`); in both cases the call
fails and the stored bytes are unchanged. -/
theorem join_first_violation_scan_order (program_id : Pubkey)
    (account : AccountInfo) (rest : List AccountInfo) (p q : Player)
    (race_account : RaceAccount) (roster : List Player)
    (hown : account.owner = program_id)
    (hacc : RaceAccount.from_account_info account = some race_account)
    (hps : race_account.players = some roster)
    (hfind : roster.find?
      (fun x => decide (x.address = p.address) || decide (x.slot = p.slot)) =
        some q) :
    process_join_race program_id (account :: rest) ⟨p⟩ =
      (.error (if q.address = p.address then .custom 0 else .custom 1),
       account :: rest) := by
  have hscan := scanRoster_eq_of_find p q roster hfind
  simp [process_join_race, hown, hacc, joinRaceRecord, hps, hscan]

/-- The account storing `recordA3`, owned by the program. -/
def accA3 : AccountInfo := ⟨pid0, encodeRace recordA3⟩

/-- Witness for the amended C5: joining `{B, 3}` against roster `[{A,3}]`
fails with `SlotNotAvailable` and leaves the bytes unchanged. -/
theorem join_first_violation_scan_order_witness :
    accA3.owner = pid0 ∧
    RaceAccount.from_account_info accA3 = some recordA3 ∧
    recordA3.players = some [⟨addrA, 3⟩] ∧
    [(⟨addrA, 3⟩ : Player)].find?
      (fun x => decide (x.address = addrB) || decide (x.slot = 3)) =
        some ⟨addrA, 3⟩ ∧
    process_join_race pid0 [accA3] ⟨⟨addrB, 3⟩⟩ =
      (.error (if (Player.mk addrA 3).address = (Player.mk addrB 3).address
                then .custom 0 else .custom 1), [accA3]) ∧
    (if (Player.mk addrA 3).address = (Player.mk addrB 3).address
      then ProgramError.custom 0 else ProgramError.custom 1) =
        ProgramError.custom 1 :=
  ⟨rfl, rfl, rfl, by decide,
   join_first_violation_scan_order pid0 accA3 [] ⟨addrB, 3⟩ ⟨addrA, 3⟩
     recordA3 [⟨addrA, 3⟩] rfl rfl rfl (by decide),
   by decide⟩

/-- C1 (code bug): joining `{B, 7}` against the present roster `[{A,3}]`
succeeds, yet the bytes persisted back to storage are identical to the
pre-call bytes — the roster with the new player appended is built in the
source's local `new_players` vector and then dropped, so the stored roster
is still `[{A,3}]`, not `[{A,3},{B,7}]` as the claim requires. -/
theorem join_race_append_lost :
    process_join_race pid0 [accA3] ⟨⟨addrB, 7⟩⟩ = (.ok (), [accA3]) ∧
    RaceAccount.from_account_info accA3 = some recordA3 ∧
    recordA3.players = some [⟨addrA, 3⟩] ∧
    some [(⟨addrA, 3⟩ : Player)] ≠ some [(⟨addrA, 3⟩ : Player), ⟨addrB, 7⟩] :=
  ⟨rfl, rfl, rfl, by decide⟩

/-- The metadata arguments used to exhibit the unassigned `type` field. -/
def argsMeta : UpdateRaceArgs := ⟨8, 1, 9, 2, [], [], 3, 4, 5⟩

/-- A record whose `type` field is 5. -/
def recordT5 : RaceAccount := ⟨0, 0, 5, 0, [], [], 0, 0, 0, [], 0, none⟩

/-- The account storing `recordT5`, owned by the program. -/
def accT5 : AccountInfo := ⟨pid0, encodeRace recordT5⟩

/-- C2 (code bug): `process_update_race` assigns `date, level, name,
location, distance, entry_fee, prize_pool, status` but never assigns
`r#type`, so with `args.type = 9` the persisted record still has
`type = 5` — the claim requires 9. -/
theorem update_race_type_not_overwritten :
    process_update_race pid0 [accT5] argsMeta =
      (.ok (), [⟨pid0, encodeRace (updateRaceRecord recordT5 argsMeta)⟩]) ∧
    (updateRaceRecord recordT5 argsMeta).type = 5 ∧
    argsMeta.type = 9 ∧
    (5 : Nat) ≠ 9 ∧
    (updateRaceRecord recordT5 argsMeta).status = argsMeta.status ∧
    (updateRaceRecord recordT5 argsMeta).players = recordT5.players :=
  ⟨rfl, rfl, rfl, by decide, rfl, rfl⟩

/-- Game-info arguments whose `game_url` makes the record outgrow its
storage slot. -/
def argsGameLong : UpdateGameArgs := ⟨[104, 105], 0⟩

/-- The account storing `emptyRecord`, owned by the program, with capacity
exactly the record's current encoded size. -/
def accEmpty : AccountInfo := ⟨pid0, encodeRace emptyRecord⟩

/-- C6 (code bug): when the updated record no longer fits, the code has no
capacity check and no `StorageCapacityExceeded` error (the source's only
typed errors are `custom 0` and `custom 1`): borsh serialization into the
full slice fails mid-write with an I/O error after the encoding's prefix
has already been written, so the stored bytes are corrupted by a partial
write instead of being left untouched. -/
theorem serialize_overflow_truncated_write :
    accEmpty.data.length <
      (encodeRace (updateGameRecord emptyRecord argsGameLong)).length ∧
    process_update_game pid0 [accEmpty] argsGameLong =
      (.error .borshIoError,
       [⟨pid0, (encodeRace (updateGameRecord emptyRecord argsGameLong)).take
          accEmpty.data.length⟩]) ∧
    (encodeRace (updateGameRecord emptyRecord argsGameLong)).take
      accEmpty.data.length ≠ accEmpty.data :=
  ⟨by decide, rfl, by decide⟩

end SolanaRace
